import Mathlib

/-!
Verification development for the DeepLearningDSL interpreter
(src/interpreter/dsl_interpreter.py) and its model engines
(src/interpreter/kmeans_engine.py, src/interpreter/autoencoder_engine.py).

The interpreter is embedded shallowly: parse-tree node kinds become an AST
that mirrors the grammar rules the visitor walks, the visitor methods become
a fuel-indexed evaluator in a state-plus-errors monad, and Python floats are
idealized as rationals (interpreter values) or reals (model engines).
The ArithmeticEngine and MatrixEngine source files are not under src/;
the definitions that stand in for them are modelled from the spec and say so
in their doc comments.
-/

namespace DSL

/-- Runtime value of the DSL as manipulated by DSLInterpreter: Python ints,
floats, bools, strings, lists, and None (the absent result).  Floats are
idealized as rationals. -/
inductive Value where
  | vint : ℤ → Value
  | vfloat : ℚ → Value
  | vbool : Bool → Value
  | vstr : String → Value
  | vlist : List Value → Value
  | vnone : Value
deriving Repr

/-- Python `v is None`. -/
def Value.isNone : Value → Bool
  | .vnone => true
  | _ => false

/-- The variable table `self.variables`: a Python dict modelled as an
association list whose update keeps the original key position. -/
abbrev Env := List (String × Value)

/-- Dictionary lookup. -/
def envGet (env : Env) (x : String) : Option Value :=
  match env with
  | [] => none
  | (k, v) :: rest => if k = x then some v else envGet rest x

/-- Dictionary update `self.variables[x] = v`: replaces in place, appends if
absent. -/
def envSet (env : Env) (x : String) (v : Value) : Env :=
  match env with
  | [] => [(x, v)]
  | (k, w) :: rest => if k = x then (k, v) :: rest else (k, w) :: envSet rest x v

/-- Numeric view: Python `isinstance(v, (int, float))` with the value read as
a rational. -/
def toQ : Value → Option ℚ
  | .vint a => some (a : ℚ)
  | .vfloat a => some a
  | _ => none

/-- Modelled from the spec: the ArithmeticEngine source (arithmetic_engine.py)
is not under src/.  Spec section 4.2 gives the numeric promotion rule used by
add, subtract, multiply and power: int with int stays int, any float operand
makes the result float, and non-numeric operands are a reportable type
error. -/
def promote2 (f : ℤ → ℤ → ℤ) (g : ℚ → ℚ → ℚ) : Value → Value → Except String Value
  | .vint a, .vint b => .ok (.vint (f a b))
  | .vint a, .vfloat b => .ok (.vfloat (g (a : ℚ) b))
  | .vfloat a, .vint b => .ok (.vfloat (g a (b : ℚ)))
  | .vfloat a, .vfloat b => .ok (.vfloat (g a b))
  | _, _ => .error "Type error: unsupported operand types"

/-- Modelled from the spec: ArithmeticEngine.add. -/
def arithAdd : Value → Value → Except String Value :=
  promote2 (fun a b => a + b) (fun a b => a + b)

/-- Modelled from the spec: ArithmeticEngine.subtract. -/
def arithSubtract : Value → Value → Except String Value :=
  promote2 (fun a b => a - b) (fun a b => a - b)

/-- Modelled from the spec: ArithmeticEngine.multiply. -/
def arithMultiply : Value → Value → Except String Value :=
  promote2 (fun a b => a * b) (fun a b => a * b)

/-- Modelled from the spec: ArithmeticEngine.divide; division always yields
float and division by zero is a reportable arithmetic error (spec 4.2). -/
def arithDivide (a b : Value) : Except String Value :=
  match toQ a, toQ b with
  | some x, some y =>
    if y = 0 then .error "Division by zero" else .ok (.vfloat (x / y))
  | _, _ => .error "Type error: unsupported operand types"

/-- Modelled from the spec: ArithmeticEngine.modulo on ints; modulo by zero is
a reportable arithmetic error (spec 4.2). -/
def arithModulo : Value → Value → Except String Value
  | .vint a, .vint b =>
    if b = 0 then .error "Modulo by zero" else .ok (.vint (a % b))
  | _, _ => .error "Type error: unsupported operand types"

/-- Modelled from the spec: ArithmeticEngine.power with the 4.2 promotion
rule; int to a nonnegative int power stays int, a float operand or a negative
exponent yields float.  Non-integer exponents are not modelled. -/
def arithPower : Value → Value → Except String Value
  | .vint a, .vint b =>
    if 0 ≤ b then .ok (.vint (a ^ b.toNat)) else .ok (.vfloat ((a : ℚ) ^ b))
  | .vfloat a, .vint b => .ok (.vfloat (a ^ b))
  | _, _ => .error "Type error: unsupported operand types"

/-- Modelled from the spec: ArithmeticEngine.negate. -/
def arithNegate : Value → Except String Value
  | .vint a => .ok (.vint (-a))
  | .vfloat a => .ok (.vfloat (-a))
  | _ => .error "Type error: unsupported operand type"

/-- Modelled from the spec: ArithmeticEngine.compare over the six relational
operators; numeric operands compare after promotion, equal-typed strings
compare for equality, and cross-type comparisons are a reportable type error
(spec 4.2). -/
def arithCompare (a b : Value) (op : String) : Except String Value :=
  match toQ a, toQ b with
  | some x, some y =>
    if op = "==" then .ok (.vbool (decide (x = y)))
    else if op = "!=" then .ok (.vbool (decide (x ≠ y)))
    else if op = "<" then .ok (.vbool (decide (x < y)))
    else if op = "<=" then .ok (.vbool (decide (x ≤ y)))
    else if op = ">" then .ok (.vbool (decide (y < x)))
    else if op = ">=" then .ok (.vbool (decide (y ≤ x)))
    else .error "Unknown comparison operator"
  | _, _ =>
    match a, b with
    | .vstr s, .vstr t =>
      if op = "==" then .ok (.vbool (decide (s = t)))
      else if op = "!=" then .ok (.vbool (decide (s ≠ t)))
      else .error "Unknown comparison operator"
    | _, _ => .error "Type error: cannot compare values of incompatible types"

/-- DSLInterpreter.is_truthy, translated clause by clause from the source:
bool as-is, numbers truthy iff nonzero, strings and lists truthy iff
non-empty, any remaining value truthy iff it is not None. -/
def is_truthy : Value → Bool
  | .vbool b => b
  | .vint n => decide (n ≠ 0)
  | .vfloat q => decide (q ≠ 0)
  | .vstr s => decide (0 < s.length)
  | .vlist l => decide (0 < l.length)
  | .vnone => false

/-- Scalar test of the list-or-matrix auto-detection:
`isinstance(elem, (int, float, str, bool))`. -/
def isScalarValue : Value → Bool
  | .vint _ => true
  | .vfloat _ => true
  | .vstr _ => true
  | .vbool _ => true
  | _ => false

/-- List test of the auto-detection: `isinstance(elem, list)`. -/
def isListValue : Value → Bool
  | .vlist _ => true
  | _ => false

/-- Row contents of an element already known to be a list. -/
def rowOf : Value → List Value
  | .vlist l => l
  | _ => []

/-- Modelled from the spec: the MatrixEngine source (matrix_engine.py) is not
under src/.  Spec section 4.3: create_matrix(rows) validates that every row
has equal length and is numeric, raising a shape error otherwise; the section
3 Matrix invariant requires all rows of equal length > 0 and row count > 0.
On success the matrix value is the validated list of rows. -/
def create_matrix (rows : List (List Value)) : Except String Value :=
  match rows with
  | [] => .error "Matrix shape error: empty matrix"
  | r0 :: rest =>
    if r0.length = 0 then .error "Matrix shape error: empty row"
    else if rest.all (fun r => r.length = r0.length) then
      if (r0 :: rest).all (fun r => r.all isNumericEntry) then
        .ok (.vlist ((r0 :: rest).map Value.vlist))
      else .error "Matrix shape error: non numeric entry"
    else .error "Matrix shape error: rows of unequal length"
where
  isNumericEntry : Value → Bool
    | .vint _ => true
    | .vfloat _ => true
    | _ => false

/-- The auto-detection step of visitList_or_matrix_content, applied to the
fully evaluated element sequence: all scalars give a plain list, all lists go
to the matrix constructor, any other mixture gives a plain list. -/
def buildListOrMatrix (elems : List Value) : Except String Value :=
  if elems.all isScalarValue then .ok (.vlist elems)
  else if elems.all isListValue then create_matrix (elems.map rowOf)
  else .ok (.vlist elems)

/-- Additive operator of an expr_rest node. -/
inductive AddOp where
  | plus
  | minus
deriving Repr

/-- Multiplicative operator of a term_rest node. -/
inductive MulOp where
  | mult
  | div
  | mod
deriving Repr

mutual

/-- expression := term expr_rest; the expr_rest chain is the list of
(operator, term) pairs it spells out. -/
inductive Expr where
  | mk : Term → List (AddOp × Term) → Expr

/-- term := factor term_rest. -/
inductive Term where
  | mk : Factor → List (MulOp × Factor) → Term

/-- factor := base factor_rest; the list holds the bases of the POWER
chain. -/
inductive Factor where
  | mk : Base → List Base → Factor

/-- base: identifier, literals, parenthesized expression, bracketed
list-or-matrix content, user function call, or unary minus. -/
inductive Base where
  | id : String → Base
  | num : ℤ → Base
  | flt : ℚ → Base
  | str : String → Base
  | paren : Expr → Base
  | listlit : List LMRow → Base
  | call : String → List Expr → Base
  | neg : Base → Base

/-- list_or_matrix_row: a bracketed expression_list row or a single
expression element. -/
inductive LMRow where
  | row : List Expr → LMRow
  | single : Expr → LMRow

/-- condition := expression rel_op expression | expression. -/
inductive Cond where
  | rel : Expr → String → Expr → Cond
  | single : Expr → Cond

/-- statement alternatives walked by visitStatement.  sfor carries the init
assignment, condition, update assignment and body; fndef carries name,
parameters, body statement list and the return expression. -/
inductive Stmt where
  | assign : String → Expr → Stmt
  | sif : Cond → List Stmt → Option (List Stmt) → Stmt
  | sfor : String → Expr → Cond → String → Expr → List Stmt → Stmt
  | swhile : Cond → List Stmt → Stmt
  | fndef : String → List String → List Stmt → Expr → Stmt
  | callStmt : String → List Expr → Stmt
  | exprStmt : Expr → Stmt

end

/-- One entry of `self.functions`. -/
structure FuncDef where
  params : List String
  body : List Stmt
  ret : Expr

/-- The function table `self.functions`. -/
abbrev FuncTable := List (String × FuncDef)

/-- Function table lookup. -/
def fnGet (t : FuncTable) (f : String) : Option FuncDef :=
  match t with
  | [] => none
  | (k, d) :: rest => if k = f then some d else fnGet rest f

/-- Function table update (redefinition overwrites silently). -/
def fnSet (t : FuncTable) (f : String) (d : FuncDef) : FuncTable :=
  match t with
  | [] => [(f, d)]
  | (k, e) :: rest => if k = f then (k, d) :: rest else (k, e) :: fnSet rest f d

/-- Mutable interpreter state: the variable dict, the function table, and the
return-value and in-function flags. -/
structure St where
  vars : Env
  functions : FuncTable
  return_value : Value
  in_function : Bool

/-- Interpreter computations: state threading with Python-style exceptions;
an exception carries the state at the raise point (mutations before the raise
survive, as in Python). -/
def M (α : Type) : Type := St → Except String α × St

/-- Monadic return. -/
def mpure {α : Type} (a : α) : M α := fun s => (.ok a, s)

/-- Monadic bind. -/
def mbind {α β : Type} (m : M α) (f : α → M β) : M β := fun s =>
  match m s with
  | (.ok a, s1) => f a s1
  | (.error e, s1) => (.error e, s1)

instance : Monad M where
  pure := mpure
  bind := mbind

/-- Raise an exception. -/
def mthrow {α : Type} (msg : String) : M α := fun s => (.error msg, s)

/-- Read the state. -/
def getSt : M St := fun s => (.ok s, s)

/-- Transform the state. -/
def modifySt (f : St → St) : M Unit := fun s => (.ok (), f s)

/-- Lift a pure kernel result (arithmetic or matrix engine call) into the
interpreter monad. -/
def liftE {α : Type} (e : Except String α) : M α := fun s => (e, s)

/-- Bind the call arguments onto the CURRENT variable dict, exactly as the
loop `for param, arg in zip(params, args)` does: the caller dict is extended
and same-named entries are overwritten, no fresh dict is created. -/
def bindParams (env : Env) (ps : List String) (args : List Value) : Env :=
  match ps, args with
  | p :: ps2, a :: as2 => bindParams (envSet env p a) ps2 as2
  | _, _ => env

mutual

/-- visitExpression. -/
def evalExpr (fuel : ℕ) (e : Expr) : M Value :=
  match fuel with
  | 0 => mthrow "out of fuel"
  | fuel' + 1 =>
    match e with
    | .mk t rest => do
      let v ← evalTerm fuel' t
      evalAddChain fuel' rest v

/-- visit_expr_rest: left-to-right fold of the + and - chain. -/
def evalAddChain (fuel : ℕ) (rest : List (AddOp × Term)) (leftVal : Value) :
    M Value :=
  match fuel with
  | 0 => mthrow "out of fuel"
  | fuel' + 1 =>
    match rest with
    | [] => mpure leftVal
    | (op, t) :: more => do
      let r ← evalTerm fuel' t
      let res ← liftE (match op with
        | .plus => arithAdd leftVal r
        | .minus => arithSubtract leftVal r)
      evalAddChain fuel' more res

/-- visitTerm. -/
def evalTerm (fuel : ℕ) (t : Term) : M Value :=
  match fuel with
  | 0 => mthrow "out of fuel"
  | fuel' + 1 =>
    match t with
    | .mk f rest => do
      let v ← evalFactor fuel' f
      evalMulChain fuel' rest v

/-- visit_term_rest: left-to-right fold of the *, / and % chain. -/
def evalMulChain (fuel : ℕ) (rest : List (MulOp × Factor)) (leftVal : Value) :
    M Value :=
  match fuel with
  | 0 => mthrow "out of fuel"
  | fuel' + 1 =>
    match rest with
    | [] => mpure leftVal
    | (op, f) :: more => do
      let r ← evalFactor fuel' f
      let res ← liftE (match op with
        | .mult => arithMultiply leftVal r
        | .div => arithDivide leftVal r
        | .mod => arithModulo leftVal r)
      evalMulChain fuel' more res

/-- visitFactor. -/
def evalFactor (fuel : ℕ) (f : Factor) : M Value :=
  match fuel with
  | 0 => mthrow "out of fuel"
  | fuel' + 1 =>
    match f with
    | .mk b rest => do
      let v ← evalBase fuel' b
      evalPowChain fuel' rest v

/-- visit_factor_rest: left-to-right fold of the POWER chain. -/
def evalPowChain (fuel : ℕ) (rest : List Base) (leftVal : Value) : M Value :=
  match fuel with
  | 0 => mthrow "out of fuel"
  | fuel' + 1 =>
    match rest with
    | [] => mpure leftVal
    | b :: more => do
      let r ← evalBase fuel' b
      let res ← liftE (arithPower leftVal r)
      evalPowChain fuel' more res

/-- visitBase. -/
def evalBase (fuel : ℕ) (b : Base) : M Value :=
  match fuel with
  | 0 => mthrow "out of fuel"
  | fuel' + 1 =>
    match b with
    | .id x => fun s =>
      match envGet s.vars x with
      | some v => (.ok v, s)
      | none => (.error ("Variable " ++ x ++ " not defined"), s)
    | .num n => mpure (.vint n)
    | .flt q => mpure (.vfloat q)
    | .str st => mpure (.vstr st)
    | .paren e => evalExpr fuel' e
    | .listlit rows => do
      let elems ← evalRows fuel' rows
      liftE (buildListOrMatrix elems)
    | .call f args => do
      let vs ← evalExprs fuel' args
      callUserFunction fuel' f vs
    | .neg b0 => do
      let v ← evalBase fuel' b0
      liftE (arithNegate v)

/-- visitList_or_matrix_content rows, visited first-to-last. -/
def evalRows (fuel : ℕ) (rows : List LMRow) : M (List Value) :=
  match fuel with
  | 0 => mthrow "out of fuel"
  | fuel' + 1 =>
    match rows with
    | [] => mpure []
    | r :: more => do
      let v ← evalRow fuel' r
      let vs ← evalRows fuel' more
      mpure (v :: vs)

/-- visitList_or_matrix_row: an expression_list row becomes a list value, a
single expression stays a scalar element. -/
def evalRow (fuel : ℕ) (r : LMRow) : M Value :=
  match fuel with
  | 0 => mthrow "out of fuel"
  | fuel' + 1 =>
    match r with
    | .row es => do
      let vs ← evalExprs fuel' es
      mpure (.vlist vs)
    | .single e => evalExpr fuel' e

/-- Left-to-right evaluation of an expression list (rows, call
arguments). -/
def evalExprs (fuel : ℕ) (es : List Expr) : M (List Value) :=
  match fuel with
  | 0 => mthrow "out of fuel"
  | fuel' + 1 =>
    match es with
    | [] => mpure []
    | e :: more => do
      let v ← evalExpr fuel' e
      let vs ← evalExprs fuel' more
      mpure (v :: vs)

/-- visitCondition. -/
def evalCond (fuel : ℕ) (c : Cond) : M Value :=
  match fuel with
  | 0 => mthrow "out of fuel"
  | fuel' + 1 =>
    match c with
    | .rel l op r => do
      let lv ← evalExpr fuel' l
      let rv ← evalExpr fuel' r
      liftE (arithCompare lv rv op)
    | .single e => evalExpr fuel' e

/-- visitStatement dispatch, with each handler inlined from its visitor
method. -/
def evalStmt (fuel : ℕ) (st : Stmt) : M Value :=
  match fuel with
  | 0 => mthrow "out of fuel"
  | fuel' + 1 =>
    match st with
    | .assign x e => do
      let v ← evalExpr fuel' e
      modifySt (fun s => { s with vars := envSet s.vars x v })
      mpure v
    | .sif c thn els => do
      let cv ← evalCond fuel' c
      if is_truthy cv then evalStmtList fuel' thn
      else
        match els with
        | some es => evalStmtList fuel' es
        | none => mpure .vnone
    | .sfor x1 e1 c x2 e2 body => do
      let v1 ← evalExpr fuel' e1
      modifySt (fun s => { s with vars := envSet s.vars x1 v1 })
      evalLoopFor fuel' c x2 e2 body []
    | .swhile c body => evalLoopWhile fuel' c body []
    | .fndef f ps body ret => do
      modifySt (fun s =>
        { s with functions := fnSet s.functions f ⟨ps, body, ret⟩ })
      mpure .vnone
    | .callStmt f args => do
      let vs ← evalExprs fuel' args
      callUserFunction fuel' f vs
    | .exprStmt e => evalExpr fuel' e

/-- The while-iteration of visitWhile_loop: results collects the non-None
body results, and the loop answer is the last of them, None when there is
none. -/
def evalLoopWhile (fuel : ℕ) (c : Cond) (body : List Stmt)
    (results : List Value) : M Value :=
  match fuel with
  | 0 => mthrow "out of fuel"
  | fuel' + 1 => do
    let cv ← evalCond fuel' c
    if is_truthy cv then do
      let r ← evalStmtList fuel' body
      evalLoopWhile fuel' c body
        (if r.isNone then results else results ++ [r])
    else
      mpure (results.getLastD .vnone)

/-- The for-iteration of visitFor_loop: body, then the update assignment,
with the same results collection as the while loop. -/
def evalLoopFor (fuel : ℕ) (c : Cond) (x2 : String) (e2 : Expr)
    (body : List Stmt) (results : List Value) : M Value :=
  match fuel with
  | 0 => mthrow "out of fuel"
  | fuel' + 1 => do
    let cv ← evalCond fuel' c
    if is_truthy cv then do
      let r ← evalStmtList fuel' body
      let v2 ← evalExpr fuel' e2
      modifySt (fun s => { s with vars := envSet s.vars x2 v2 })
      evalLoopFor fuel' c x2 e2 body
        (if r.isNone then results else results ++ [r])
    else
      mpure (results.getLastD .vnone)

/-- visitStatement_list: first statement, the pending-return short circuit,
then the rest, whose non-None result wins. -/
def evalStmtList (fuel : ℕ) (stmts : List Stmt) : M Value :=
  match fuel with
  | 0 => mthrow "out of fuel"
  | fuel' + 1 =>
    match stmts with
    | [] => mpure .vnone
    | st :: rest => do
      let result ← evalStmt fuel' st
      let s ← getSt
      if s.return_value.isNone = false && s.in_function then
        mpure s.return_value
      else do
        let restResult ← evalStmtList fuel' rest
        mpure (if restResult.isNone then result else restResult)

/-- Body plus return statement of a user function, as run inside
call_user_function; visitReturn_stmt records the return value in the
return_value flag and yields it. -/
def evalBodyRet (fuel : ℕ) (body : List Stmt) (ret : Expr) : M Value :=
  match fuel with
  | 0 => mthrow "out of fuel"
  | fuel' + 1 => do
    let _ ← evalStmtList fuel' body
    let v ← evalExpr fuel' ret
    modifySt (fun s => { s with return_value := v })
    mpure v

/-- call_user_function: lookup and arity check, save the variables dict and
the two flags, bind arguments over the current dict, run body and return
statement, and restore the saved dict and flags on every outcome (the
finally block). -/
def callUserFunction (fuel : ℕ) (fname : String) (args : List Value) :
    M Value :=
  match fuel with
  | 0 => mthrow "out of fuel"
  | fuel' + 1 => fun s =>
    match fnGet s.functions fname with
    | none => (.error ("Function " ++ fname ++ " not defined"), s)
    | some fd =>
      if args.length ≠ fd.params.length then
        (.error ("Function " ++ fname ++ " called with wrong argument count"),
         s)
      else
        match evalBodyRet fuel' fd.body fd.ret
            { s with in_function := true, return_value := .vnone,
                     vars := bindParams s.vars fd.params args } with
        | (r, s2) =>
          (r, { s2 with vars := s.vars,
                        in_function := s.in_function,
                        return_value := s.return_value })

end

/-- Wrap a literal int as a full expression node. -/
def eInt (n : ℤ) : Expr := .mk (.mk (.mk (.num n) []) []) []

/-- Wrap an identifier as a full expression node. -/
def eId (x : String) : Expr := .mk (.mk (.mk (.id x) []) []) []

/-- Specification-side trace of a while loop: the list of every executed
body result in execution order, None results included, threading the same
state as the loop itself. -/
def traceWhile (fuel : ℕ) (c : Cond) (body : List Stmt) : M (List Value) :=
  match fuel with
  | 0 => mthrow "out of fuel"
  | fuel' + 1 => do
    let cv ← evalCond fuel' c
    if is_truthy cv then do
      let r ← evalStmtList fuel' body
      let rest ← traceWhile fuel' c body
      mpure (r :: rest)
    else mpure []

/-- Specification-side trace of a for loop, after its init assignment:
every executed body result in order, with the update assignment run after
each body, threading the same state as the loop itself. -/
def traceFor (fuel : ℕ) (c : Cond) (x2 : String) (e2 : Expr)
    (body : List Stmt) : M (List Value) :=
  match fuel with
  | 0 => mthrow "out of fuel"
  | fuel' + 1 => do
    let cv ← evalCond fuel' c
    if is_truthy cv then do
      let r ← evalStmtList fuel' body
      let v2 ← evalExpr fuel' e2
      modifySt (fun s => { s with vars := envSet s.vars x2 v2 })
      let rest ← traceFor fuel' c x2 e2 body
      mpure (r :: rest)
    else mpure []

/-- The value the loops actually report, expressed on a full result trace:
the last non-None entry, None when there is none. -/
def lastNonUnit (l : List Value) : Value :=
  (l.filter (fun v => v.isNone = false)).getLastD .vnone

lemma envGet_envSet_ne (env : Env) (p x : String) (a : Value) (h : p ≠ x) :
    envGet (envSet env p a) x = envGet env x := by
  induction env with
  | nil => simp [envGet, envSet, h]
  | cons kv rest ih =>
    obtain ⟨k, w⟩ := kv
    by_cases hk : k = p
    · subst hk
      simp [envGet, envSet, h]
    · simp [envGet, envSet, hk]
      by_cases hx : k = x <;> simp [hx, ih]

lemma envGet_bindParams_not_mem (ps : List String) (args : List Value)
    (env : Env) (x : String) (h : x ∉ ps) :
    envGet (bindParams env ps args) x = envGet env x := by
  induction ps generalizing args env with
  | nil => cases args <;> rfl
  | cons p ps2 ih =>
    cases args with
    | nil => rfl
    | cons a as2 =>
      have hpx : p ≠ x := fun hc => h (hc ▸ List.mem_cons_self p ps2)
      have hx2 : x ∉ ps2 := fun hc => h (List.mem_cons_of_mem p hc)
      show envGet (bindParams (envSet env p a) ps2 as2) x = envGet env x
      rw [ih as2 (envSet env p a) hx2, envGet_envSet_ne env p x a hpx]

lemma evalExpr_eId (fuel : ℕ) (x : String) (t : St) :
    evalExpr (fuel + 4) (eId x) t
      = (match envGet t.vars x with
         | some v => Except.ok v
         | none => Except.error ("Variable " ++ x ++ " not defined"), t) := by
  cases h : envGet t.vars x <;>
    simp [evalExpr, evalTerm, evalFactor, evalBase, evalAddChain, evalMulChain,
      evalPowChain, eId, mpure, mthrow, Bind.bind, mbind, h]

lemma evalBodyRet_nil_eId (fuel : ℕ) (x : String) (t : St) :
    evalBodyRet (fuel + 5) [] (eId x) t
      = (match envGet t.vars x with
         | some v => (Except.ok v, { t with return_value := v })
         | none => (Except.error ("Variable " ++ x ++ " not defined"), t)) := by
  cases h : envGet t.vars x <;>
    simp [evalBodyRet, evalStmtList, evalExpr_eId, mpure, modifySt,
      Bind.bind, mbind, h]

/-- A function f of no parameters whose body is empty and whose return
expression reads the name g, which is not a parameter. -/
def fReadsG : FuncDef := ⟨[], [], eId "g"⟩

/-- A caller state binding g to the int n, with f defined. -/
def stWithG (n : ℤ) : St := ⟨[("g", .vint n)], [("f", fReadsG)], .vnone, false⟩

/-- C1 counterexample: the callee DOES see caller variables.  Calling the
zero-parameter function f, whose body reads the non-parameter name g, from a
caller whose environment binds g to 7 yields 7 (not the undefined-variable
error the claim requires), and the same call from a caller binding g to 8
yields 8, so two caller environments that agree on the (empty) argument list
give different results. -/
theorem c1_callee_reads_caller_counterexample :
    callUserFunction 10 "f" [] (stWithG 7) = (.ok (.vint 7), stWithG 7)
    ∧ callUserFunction 10 "f" [] (stWithG 8) = (.ok (.vint 8), stWithG 8)
    ∧ Value.vint 7 ≠ Value.vint 8 := by
  refine ⟨rfl, rfl, ?_⟩
  simp

/-- C1 (amended): a user-function call does not build a fresh environment;
it runs the body in the caller environment extended with the parameter
bindings.  For a function whose return expression reads a name x that is not
among its parameters, the call returns the caller binding of x when one
exists, and an undefined-variable error only when the caller has no binding
for x either. -/
theorem c1_call_runs_in_extended_caller_env (fuel : ℕ) (s : St) (f x : String)
    (ps : List String) (args : List Value)
    (hf : fnGet s.functions f = some ⟨ps, [], eId x⟩)
    (hlen : args.length = ps.length)
    (hx : x ∉ ps) :
    callUserFunction (fuel + 6) f args s
      = (match envGet s.vars x with
         | some v => Except.ok v
         | none => Except.error ("Variable " ++ x ++ " not defined"), s) := by
  have hget : envGet (bindParams s.vars ps args) x = envGet s.vars x :=
    envGet_bindParams_not_mem ps args s.vars x hx
  cases h : envGet s.vars x <;>
    simp [callUserFunction, hf, hlen, evalBodyRet_nil_eId, hget, h]

/-- C1 amended witness: the amended theorem applied at the concrete caller
state binding g to 7. -/
theorem c1_call_runs_in_extended_caller_env_witness :
    callUserFunction 10 "f" [] (stWithG 7) = (Except.ok (Value.vint 7), stWithG 7) := by
  have h := c1_call_runs_in_extended_caller_env 4 (stWithG 7) "f" "g" [] []
    rfl rfl (by simp)
  simpa using h

/-- C2: call_user_function restores the caller variable dict and the
in-function and pending-return flags on every outcome, error or not: the
post-call state agrees with the pre-call state on all three, so a callee
assignment to a caller-named variable cannot survive the return. -/
theorem c2_call_restores_env_and_flags (fuel : ℕ) (f : String)
    (args : List Value) (s : St) :
    (callUserFunction fuel f args s).2.vars = s.vars
    ∧ (callUserFunction fuel f args s).2.in_function = s.in_function
    ∧ (callUserFunction fuel f args s).2.return_value = s.return_value := by
  cases fuel with
  | zero => exact ⟨rfl, rfl, rfl⟩
  | succ fuel' =>
    cases hf : fnGet s.functions f with
    | none => simp [callUserFunction, hf, mthrow]
    | some fd =>
      by_cases hl : args.length = fd.params.length
      · cases hrun : evalBodyRet fuel' fd.body fd.ret
          { s with in_function := true, return_value := .vnone,
                   vars := bindParams s.vars fd.params args } with
        | mk r s2 => simp [callUserFunction, hf, hl, hrun]
      · simp [callUserFunction, hf, hl]

/-- C4: the POWER chain of visit_factor_rest is evaluated left-to-right and
left-associatively, like the other binary levels: a factor with base a and
power chain b, c computes power(power(a, b), c); in particular the factor
2^3^2 evaluates to 64, not 512. -/
theorem c4_power_left_associative (fuel : ℕ) (s : St) (a b c : ℤ) :
    (evalFactor (fuel + 4) (.mk (.num a) [.num b, .num c]) s
      = ((do
            let p ← arithPower (.vint a) (.vint b)
            arithPower p (.vint c) : Except String Value), s))
    ∧ evalFactor 10 (.mk (.num 2) [.num 3, .num 2]) s = (.ok (.vint 64), s)
    ∧ (64 : ℤ) ≠ 512 := by
  refine ⟨?_, rfl, by decide⟩
  cases h1 : arithPower (.vint a) (.vint b) with
  | error m =>
    simp [evalFactor, evalBase, evalPowChain, mpure, liftE, Bind.bind, mbind,
      Except.bind, h1]
  | ok p =>
    cases h2 : arithPower p (.vint c) <;>
      simp [evalFactor, evalBase, evalPowChain, mpure, liftE, Bind.bind, mbind,
        Except.bind, h1, h2]

lemma evalLoopWhile_trace (fuel : ℕ) (c : Cond) (body : List Stmt) :
    ∀ (acc : List Value) (s : St),
    evalLoopWhile fuel c body acc s
      = (match traceWhile fuel c body s with
         | (.ok l, s2) =>
           (.ok ((acc ++ l.filter (fun v => v.isNone = false)).getLastD
              .vnone), s2)
         | (.error m, s2) => (.error m, s2)) := by
  induction fuel with
  | zero => intro acc s; rfl
  | succ fuel' ih =>
    intro acc s
    cases hc : evalCond fuel' c s with
    | mk rc s1 =>
      cases rc with
      | error m => simp [evalLoopWhile, traceWhile, Bind.bind, mbind, hc]
      | ok cv =>
        by_cases ht : is_truthy cv
        · cases hb : evalStmtList fuel' body s1 with
          | mk rb s2 =>
            cases rb with
            | error m =>
              simp [evalLoopWhile, traceWhile, Bind.bind, mbind, hc, ht, hb]
            | ok r =>
              have step :
                  evalLoopWhile (fuel' + 1) c body acc s
                    = evalLoopWhile fuel' c body
                        (if r.isNone then acc else acc ++ [r]) s2 := by
                simp [evalLoopWhile, Bind.bind, mbind, hc, ht, hb]
              rw [step, ih]
              cases htr : traceWhile fuel' c body s2 with
              | mk rt s3 =>
                cases rt with
                | error m =>
                  simp [traceWhile, Bind.bind, mbind, hc, ht, hb, htr]
                | ok l =>
                  simp only [traceWhile, Bind.bind, mbind, hc, ht, hb, htr,
                    if_true, mpure]
                  by_cases hr : r.isNone <;>
                    simp [hr, List.filter_cons, List.append_assoc]
        · simp [evalLoopWhile, traceWhile, Bind.bind, mbind, hc, ht, mpure]

lemma evalLoopFor_trace (fuel : ℕ) (c : Cond) (x2 : String) (e2 : Expr)
    (body : List Stmt) :
    ∀ (acc : List Value) (s : St),
    evalLoopFor fuel c x2 e2 body acc s
      = (match traceFor fuel c x2 e2 body s with
         | (.ok l, s2) =>
           (.ok ((acc ++ l.filter (fun v => v.isNone = false)).getLastD
              .vnone), s2)
         | (.error m, s2) => (.error m, s2)) := by
  induction fuel with
  | zero => intro acc s; rfl
  | succ fuel' ih =>
    intro acc s
    cases hc : evalCond fuel' c s with
    | mk rc s1 =>
      cases rc with
      | error m => simp [evalLoopFor, traceFor, Bind.bind, mbind, hc]
      | ok cv =>
        by_cases ht : is_truthy cv
        · cases hb : evalStmtList fuel' body s1 with
          | mk rb s2 =>
            cases rb with
            | error m =>
              simp [evalLoopFor, traceFor, Bind.bind, mbind, hc, ht, hb]
            | ok r =>
              cases hu : evalExpr fuel' e2 s2 with
              | mk ru s3 =>
                cases ru with
                | error m =>
                  simp [evalLoopFor, traceFor, Bind.bind, mbind, hc, ht, hb, hu]
                | ok v2 =>
                  have step :
                      evalLoopFor (fuel' + 1) c x2 e2 body acc s
                        = evalLoopFor fuel' c x2 e2 body
                            (if r.isNone then acc else acc ++ [r])
                            { s3 with vars := envSet s3.vars x2 v2 } := by
                    simp [evalLoopFor, Bind.bind, mbind, hc, ht, hb, hu,
                      modifySt]
                  rw [step, ih]
                  cases htr : traceFor fuel' c x2 e2 body
                      { s3 with vars := envSet s3.vars x2 v2 } with
                  | mk rt s4 =>
                    cases rt with
                    | error m =>
                      simp [traceFor, Bind.bind, mbind, hc, ht, hb, hu,
                        modifySt, htr]
                    | ok l =>
                      simp only [traceFor, Bind.bind, mbind, hc, ht, hb, hu,
                        modifySt, htr, if_true, mpure]
                      by_cases hr : r.isNone <;>
                        simp [hr, List.filter_cons, List.append_assoc]
        · simp [evalLoopFor, traceFor, Bind.bind, mbind, hc, ht, mpure]

/-- C5 (amended): a while or for loop returns the LAST NON-None result among
all executed body results (its trace), not the result of the last executed
iteration; it returns None when no executed body produced a non-None result,
in particular when the body never ran. -/
theorem c5_loop_returns_last_non_unit_result (fuel : ℕ) (c : Cond)
    (x2 : String) (e2 : Expr) (body : List Stmt) (s : St) :
    (evalLoopWhile fuel c body [] s
      = (match traceWhile fuel c body s with
         | (.ok l, s2) => (.ok (lastNonUnit l), s2)
         | (.error m, s2) => (.error m, s2)))
    ∧ (evalLoopFor fuel c x2 e2 body [] s
      = (match traceFor fuel c x2 e2 body s with
         | (.ok l, s2) => (.ok (lastNonUnit l), s2)
         | (.error m, s2) => (.error m, s2))) := by
  constructor
  · rw [evalLoopWhile_trace]
    cases traceWhile fuel c body s with
    | mk rt s2 => cases rt <;> simp [lastNonUnit]
  · rw [evalLoopFor_trace]
    cases traceFor fuel c x2 e2 body s with
    | mk rt s2 => cases rt <;> simp [lastNonUnit]

/-- The initial interpreter state: empty variable dict, empty function
table, cleared flags. -/
def st0 : St := ⟨[], [], .vnone, false⟩

/-- The loop body of the C5 counterexample program:
if (i < 2) then x = 7 (no else branch). -/
def c5Body : List Stmt :=
  [.sif (.rel (eId "i") "<" (eInt 2)) [.assign "x" (eInt 7)] none]

/-- The C5 counterexample program:
for (i = 0; i < 3; i = i + 1) do c5Body. -/
def c5For : Stmt :=
  .sfor "i" (eInt 0) (.rel (eId "i") "<" (eInt 3)) "i"
    (.mk (.mk (.mk (.id "i") []) []) [(.plus, .mk (.mk (.num 1) []) [])])
    c5Body

/-- The interpreter state at the start of the third (last) executed body
iteration of the counterexample loop. -/
def c5LastIterSt : St := ⟨[("i", .vint 2), ("x", .vint 7)], [], .vnone, false⟩

/-- C5 counterexample: the loop for (i = 0; i < 3; i = i + 1)
do (if (i < 2) then x = 7) returns 7, yet its last executed body iteration
(the one run with i = 2, whose condition is false and which has no else
branch) has result None; so the loop result is not the result of the last
executed body iteration. -/
theorem c5_loop_result_counterexample :
    evalStmt 60 c5For st0
      = (.ok (.vint 7), ⟨[("i", .vint 3), ("x", .vint 7)], [], .vnone, false⟩)
    ∧ evalStmtList 60 c5Body c5LastIterSt = (.ok Value.vnone, c5LastIterSt)
    ∧ Value.vint 7 ≠ Value.vnone := by
  refine ⟨rfl, rfl, ?_⟩
  simp

/-- C6: a bracketed literal first evaluates all its rows exactly once, in
order (the evalRows pass), and then applies the auto-detection to the
collected element values: all scalars give a plain list of exactly those
elements, all lists go to the Matrix Kernel constructor (which validates
rectangularity), and any other mixture gives a plain list of the
heterogeneous elements. -/
theorem c6_listlit_auto_detection (fuel : ℕ) (rows : List LMRow) (s s1 : St)
    (es : List Value)
    (h : evalRows fuel rows s = (.ok es, s1)) :
    evalBase (fuel + 1) (.listlit rows) s = (buildListOrMatrix es, s1)
    ∧ (es.all isScalarValue = true → buildListOrMatrix es = .ok (.vlist es))
    ∧ (es ≠ [] → es.all isListValue = true →
        buildListOrMatrix es = create_matrix (es.map rowOf))
    ∧ (es.all isScalarValue = false → es.all isListValue = false →
        buildListOrMatrix es = .ok (.vlist es)) := by
  refine ⟨?_, ?_, ?_, ?_⟩
  · simp [evalBase, Bind.bind, mbind, h, liftE]
  · intro hs
    simp [buildListOrMatrix, hs]
  · intro hne hl
    have hs : es.all isScalarValue = false := by
      cases es with
      | nil => exact absurd rfl hne
      | cons e es2 =>
        rw [List.all_cons] at hl ⊢
        have he : isListValue e = true := by
          have h2 : isListValue e = true ∧ es2.all isListValue = true := by
            simpa using hl
          exact h2.1
        cases e <;> simp_all [isListValue, isScalarValue]
    simp [buildListOrMatrix, hs, hl]
  · intro hs hl
    simp [buildListOrMatrix, hs, hl]

/-- C6 witness: the theorem applied to the two-element all-scalar literal
[1, 2] evaluated from the initial state. -/
theorem c6_listlit_auto_detection_witness :
    evalBase 11 (.listlit [.single (eInt 1), .single (eInt 2)]) st0
      = (buildListOrMatrix [.vint 1, .vint 2], st0)
    ∧ buildListOrMatrix [.vint 1, .vint 2]
      = .ok (.vlist [.vint 1, .vint 2]) := by
  have h := c6_listlit_auto_detection 10
    [.single (eInt 1), .single (eInt 2)] st0 st0 [.vint 1, .vint 2] rfl
  exact ⟨h.1, h.2.1 rfl⟩

end DSL

namespace KM

noncomputable section

/-- KMeansEngine state: the hyperparameters fixed by the constructor
together with the centroids, labels and fitted flag; centroids and labels
are None until fit runs, as in the Python fields. -/
structure KMeansEngine where
  n_clusters : ℕ
  max_iterations : ℕ
  tolerance : ℝ
  random_state : ℕ
  centroids : Option (List (List ℝ))
  labels : Option (List ℕ)
  fitted : Bool

/-- KMeansEngine._euclidean_distance: the loop over range(len(point1))
accumulating squared coordinate differences, then the square root. -/
def euclidean_distance (p q : List ℝ) : ℝ :=
  Real.sqrt ((List.range p.length).foldl
    (fun d i => d + (p.getD i 0 - q.getD i 0) ^ 2) 0)

/-- The inner loop of _assign_clusters for one sample: scan the centroids
keeping (min_distance, closest_cluster, next index); min_distance starts at
float inf, modelled by the None state, and the update uses strict less-than,
so ties keep the lowest cluster index. -/
def closestCluster (cs : List (List ℝ)) (x : List ℝ) : ℕ :=
  (cs.foldl
    (fun acc c =>
      match acc with
      | (none, _, i) => (some (euclidean_distance x c), i, i + 1)
      | (some m, best, i) =>
        if euclidean_distance x c < m then
          (some (euclidean_distance x c), i, i + 1)
        else (some m, best, i + 1))
    (none, 0, 0)).2.1

/-- KMeansEngine._assign_clusters. -/
def assign_clusters (cs : List (List ℝ)) (X : List (List ℝ)) : List ℕ :=
  X.map (closestCluster cs)

/-- KMeansEngine._update_centroids: each cluster becomes the mean of its
assigned points; an empty cluster keeps its previous centroid. -/
def update_centroids (k nf : ℕ) (X : List (List ℝ)) (labels : List ℕ)
    (old : List (List ℝ)) : List (List ℝ) :=
  (List.range k).map (fun cid =>
    let pts := ((X.zip labels).filter (fun p => p.2 = cid)).map Prod.fst
    if pts.length = 0 then old.getD cid []
    else (List.range nf).map (fun j =>
      (pts.map (fun p => p.getD j 0)).sum / pts.length))

/-- KMeansEngine._centroids_changed: some centroid moved farther than the
tolerance. -/
def centroids_changed (tol : ℝ) (old newCs : List (List ℝ)) : Bool :=
  (List.range old.length).any (fun i =>
    decide (tol < euclidean_distance (old.getD i []) (newCs.getD i [])))

/-- Per-feature minimum of the data; Python folds min starting from float
inf, which for non-empty data equals folding from the first sample. -/
def featMin (X : List (List ℝ)) (i : ℕ) : ℝ :=
  match X with
  | [] => 0
  | x :: xs => (xs.map (fun sm => sm.getD i 0)).foldl min (x.getD i 0)

/-- Per-feature maximum, the same way. -/
def featMax (X : List (List ℝ)) (i : ℕ) : ℝ :=
  match X with
  | [] => 0
  | x :: xs => (xs.map (fun sm => sm.getD i 0)).foldl max (x.getD i 0)

/-- KMeansEngine._initialize_centroids: each centroid coordinate is a
uniform draw within the observed per-feature range; random.uniform(a, b) is
a + u * (b - a) with u the next unit draw of the module RNG, consumed
feature-major then cluster-major. -/
def initialize_centroids (k : ℕ) (draws : ℕ → ℝ) (X : List (List ℝ)) :
    List (List ℝ) :=
  let nf := (X.getD 0 []).length
  (List.range k).map (fun c =>
    (List.range nf).map (fun i =>
      featMin X i + draws (c * nf + i) * (featMax X i - featMin X i)))

/-- The fit iteration: assign labels against the current centroids, update
the centroids from those labels, and stop early (after the update) when no
centroid moved beyond tolerance; the second component carries the last
computed labels, None while no iteration has run (Python would hit an
unbound new_labels after the loop in that case). -/
def kmLoop (tol : ℝ) (k nf : ℕ) (X : List (List ℝ)) :
    ℕ → List (List ℝ) → Option (List ℕ) →
    List (List ℝ) × Option (List ℕ)
  | 0, cs, lbls => (cs, lbls)
  | n + 1, cs, _ =>
    let labels := assign_clusters cs X
    let newCs := update_centroids k nf X labels cs
    if centroids_changed tol cs newCs then
      kmLoop tol k nf X n newCs (some labels)
    else (newCs, some labels)

/-- Input as the interpreter hands it to the engine: a flat list of numbers
or a list of rows; fit and predict inspect the first element to tell the two
apart. -/
inductive KMData where
  | flat : List ℝ → KMData
  | mat : List (List ℝ) → KMData

/-- The head of fit: `not X or not X[0]` (note that a flat list whose first
number equals 0 is reported as empty, since Python 0 is falsy), then the
single-feature-to-matrix conversion. -/
def normalizeData : KMData → Except String (List (List ℝ))
  | .flat [] => .error "Input data cannot be empty"
  | .flat (x :: xs) =>
    if x = 0 then .error "Input data cannot be empty"
    else .ok ((x :: xs).map (fun v => [v]))
  | .mat [] => .error "Input data cannot be empty"
  | .mat (r :: rs) =>
    if r.length = 0 then .error "Input data cannot be empty"
    else .ok (r :: rs)

/-- KMeansEngine.fit. -/
def fit (e : KMeansEngine) (draws : ℕ → ℝ) (data : KMData) :
    Except String KMeansEngine :=
  match normalizeData data with
  | .error m => .error m
  | .ok X =>
    if X.length < e.n_clusters then
      .error "Number of samples must be at least the number of clusters"
    else
      let nf := (X.getD 0 []).length
      let cs0 := initialize_centroids e.n_clusters draws X
      match kmLoop e.tolerance e.n_clusters nf X e.max_iterations cs0 none with
      | (_, none) =>
        .error "UnboundLocalError: new_labels referenced before assignment"
      | (cs, some lbls) =>
        .ok { e with centroids := some cs, labels := some lbls,
                     fitted := true }

/-- KMeansEngine.predict: the fitted gate comes first, then the same input
normalization as fit (an empty input would hit the X[0] index error), then
assignment against the stored centroids without refitting. -/
def predict (e : KMeansEngine) (data : KMData) : Except String (List ℕ) :=
  if e.fitted = false then
    .error "Model must be fitted before making predictions"
  else
    match data with
    | .flat [] => .error "IndexError: list index out of range"
    | .flat (x :: xs) =>
      .ok (assign_clusters (e.centroids.getD [])
        ((x :: xs).map (fun v => [v])))
    | .mat [] => .error "IndexError: list index out of range"
    | .mat (r :: rs) => .ok (assign_clusters (e.centroids.getD []) (r :: rs))

/-- KMeansEngine.get_centroids: fitted gate, then a deep copy of the
centroids. -/
def get_centroids (e : KMeansEngine) : Except String (List (List ℝ)) :=
  if e.fitted = false then .error "Model must be fitted first"
  else .ok (e.centroids.getD [])

/-- KMeansEngine.fit_predict. -/
def fit_predict (e : KMeansEngine) (draws : ℕ → ℝ) (data : KMData) :
    Except String (List ℕ) :=
  match fit e draws data with
  | .error m => .error m
  | .ok e2 => .ok (e2.labels.getD [])

/-- The constructor: records the hyperparameters unfitted and re-seeds the
module-level RNG, replacing whatever stream state g was current by the
stream mt(random_state) determined by the seed alone (random.seed in
the constructor). -/
def construct (mt : ℕ → ℕ → ℝ) (k maxIt : ℕ) (tol : ℝ) (seed : ℕ)
    (_g : ℕ → ℝ) : KMeansEngine × (ℕ → ℝ) :=
  (⟨k, maxIt, tol, seed, none, none, false⟩, mt seed)

/-- How many unit draws fit consumes from the module RNG: one per generated
centroid coordinate, none when it raises before initialization. -/
def consumedDraws (e : KMeansEngine) (data : KMData) : ℕ :=
  match normalizeData data with
  | .error _ => 0
  | .ok X =>
    if X.length < e.n_clusters then 0
    else e.n_clusters * (X.getD 0 []).length

/-- fit together with its effect on the module RNG stream. -/
def fitG (e : KMeansEngine) (g : ℕ → ℝ) (data : KMData) :
    Except String KMeansEngine × (ℕ → ℝ) :=
  (fit e g data, fun n => g (n + consumedDraws e data))

/-- Construct a fresh engine with the given seed and fit it once, starting
from module RNG state g. -/
def constructAndFit (mt : ℕ → ℕ → ℝ) (k maxIt : ℕ) (tol : ℝ) (seed : ℕ)
    (data : KMData) (g : ℕ → ℝ) : Except String KMeansEngine × (ℕ → ℝ) :=
  match construct mt k maxIt tol seed g with
  | (e, g1) => fitG e g1 data

end

lemma euclid_single (a b : ℝ) : euclidean_distance [a] [b] = |a - b| := by
  have hr : List.range (List.length [a]) = [0] := rfl
  rw [euclidean_distance, hr]
  simp [List.foldl]
  rw [Real.sqrt_sq_eq_abs]

lemma closest2 (c0 c1 x : ℝ) :
    closestCluster [[c0], [c1]] [x]
      = if |x - c1| < |x - c0| then 1 else 0 := by
  by_cases h : |x - c1| < |x - c0| <;>
    simp [closestCluster, euclid_single, h]

/-- The concrete engine of the C3 counterexample: 2 clusters, a single
fit iteration, tolerance 1e-6, the default seed. -/
noncomputable def e0 : KMeansEngine := ⟨2, 1, 1 / 1000000, 42, none, none, false⟩

/-- Unit draws for the counterexample initialization: 0 then 1/10, values a
uniform unit RNG can produce. -/
noncomputable def draws0 : ℕ → ℝ :=
  fun n => if n = 0 then 0 else if n = 1 then 1 / 10 else 0

/-- The counterexample dataset: three one-feature points 0, 1, 10. -/
noncomputable def X0 : List (List ℝ) := [[0], [1], [10]]

/-- The dataset as handed over by the interpreter. -/
noncomputable def data0 : KMData := .mat X0

lemma normalize_data0 : normalizeData data0 = .ok X0 := by
  simp [normalizeData, data0, X0]

lemma featMin_X0 : featMin X0 0 = 0 := by
  simp [featMin, X0]

lemma featMax_X0 : featMax X0 0 = 10 := by
  simp [featMax, X0]

lemma init_X0 : initialize_centroids 2 draws0 X0 = [[0], [1]] := by
  have hshape : initialize_centroids 2 draws0 X0
      = [[featMin X0 0 + draws0 0 * (featMax X0 0 - featMin X0 0)],
         [featMin X0 0 + draws0 1 * (featMax X0 0 - featMin X0 0)]] := rfl
  have hd0 : draws0 0 = 0 := by norm_num [draws0]
  have hd1 : draws0 1 = 1 / 10 := by norm_num [draws0]
  rw [hshape, featMin_X0, featMax_X0, hd0, hd1]
  norm_num

lemma assign_init_X0 : assign_clusters [[0], [1]] X0 = [0, 1, 1] := by
  have h0 : closestCluster [[(0:ℝ)], [1]] [0] = 0 := by
    rw [closest2, if_neg (by rw [abs_sub_lt_iff]; norm_num)]
  have h1 : closestCluster [[(0:ℝ)], [1]] [1] = 1 := by
    rw [closest2, if_pos (by rw [abs_sub_lt_iff]; norm_num)]
  have h2 : closestCluster [[(0:ℝ)], [1]] [10] = 1 := by
    rw [closest2, if_pos (by rw [abs_sub_lt_iff]; norm_num)]
  show [closestCluster [[(0:ℝ)], [1]] [0], closestCluster [[(0:ℝ)], [1]] [1],
    closestCluster [[(0:ℝ)], [1]] [10]] = [0, 1, 1]
  rw [h0, h1, h2]

lemma assign_final_X0 : assign_clusters [[0], [11 / 2]] X0 = [0, 0, 1] := by
  have h0 : closestCluster [[(0:ℝ)], [11 / 2]] [0] = 0 := by
    rw [closest2, if_neg (by rw [abs_sub_lt_iff]; norm_num)]
  have h1 : closestCluster [[(0:ℝ)], [11 / 2]] [1] = 0 := by
    rw [closest2, if_neg (by rw [abs_sub_lt_iff]; norm_num)]
  have h2 : closestCluster [[(0:ℝ)], [11 / 2]] [10] = 1 := by
    rw [closest2, if_pos (by rw [abs_sub_lt_iff]; norm_num)]
  show [closestCluster [[(0:ℝ)], [11 / 2]] [0],
    closestCluster [[(0:ℝ)], [11 / 2]] [1],
    closestCluster [[(0:ℝ)], [11 / 2]] [10]] = [0, 0, 1]
  rw [h0, h1, h2]

lemma update_X0 :
    update_centroids 2 1 X0 [0, 1, 1] [[0], [1]] = [[0], [11 / 2]] := by
  simp [update_centroids, X0, List.range_succ, List.filter]
  norm_num

lemma fit_example_eval :
    fit e0 draws0 data0
      = .ok ⟨2, 1, 1 / 1000000, 42, some [[0], [11 / 2]], some [0, 1, 1],
          true⟩ := by
  have hlen : ¬ (X0.length < e0.n_clusters) := by simp [X0, e0]
  have hnf : (X0.getD 0 []).length = 1 := by simp [X0]
  have hloop :
      kmLoop e0.tolerance 2 1 X0 1 [[0], [1]] none
        = ([[0], [11 / 2]], some [0, 1, 1]) := by
    simp only [kmLoop]
    rw [assign_init_X0, update_X0]
    split <;> rfl
  have hk : e0.n_clusters = 2 := rfl
  have hmax : e0.max_iterations = 1 := rfl
  rw [fit, normalize_data0]
  simp only [hnf, hk, hmax, init_X0]
  rw [hloop, if_neg (show ¬ (X0.length < 2) by simp [X0])]
  rfl

/-- C3 counterexample: fit on the dataset 0, 1, 10 with 2 clusters, one
iteration, and an in-range random start at 0 and 1 stores labels 0, 1, 1,
while the nearest final centroid (among 0 and 5.5) for each point gives
0, 0, 1: the stored label of the middle point is 1, but the centroid
nearest it among the final fitted centroids has index 0. -/
theorem c3_labels_not_nearest_final_counterexample :
    fit e0 draws0 data0
      = .ok ⟨2, 1, 1 / 1000000, 42, some [[0], [11 / 2]], some [0, 1, 1],
          true⟩
    ∧ initialize_centroids 2 draws0 X0 = [[0], [1]]
    ∧ assign_clusters [[0], [11 / 2]] X0 = [0, 0, 1]
    ∧ [0, 1, 1] ≠ [0, 0, 1] := by
  exact ⟨fit_example_eval, init_X0, assign_final_X0, by decide⟩

lemma kmLoop_inv (tol : ℝ) (k nf : ℕ) (X : List (List ℝ)) :
    ∀ (n : ℕ) (cs : List (List ℝ)) (lbls : Option (List ℕ))
      (csF : List (List ℝ)) (lblF : List ℕ),
    (∀ l, lbls = some l →
      ∃ csPre, l = assign_clusters csPre X
        ∧ cs = update_centroids k nf X (assign_clusters csPre X) csPre) →
    kmLoop tol k nf X n cs lbls = (csF, some lblF) →
    ∃ csPre, lblF = assign_clusters csPre X
      ∧ csF = update_centroids k nf X (assign_clusters csPre X) csPre := by
  intro n
  induction n with
  | zero =>
    intro cs lbls csF lblF hinv heq
    have h1 : cs = csF ∧ lbls = some lblF := by
      have := heq
      simp only [kmLoop, Prod.mk.injEq] at this
      exact this
    obtain ⟨hcs, hl⟩ := h1
    obtain ⟨csPre, hp1, hp2⟩ := hinv lblF hl
    exact ⟨csPre, hp1, hcs ▸ hp2⟩
  | succ n ih =>
    intro cs lbls csF lblF hinv heq
    simp only [kmLoop] at heq
    by_cases hc : centroids_changed tol cs
        (update_centroids k nf X (assign_clusters cs X) cs) = true
    · rw [if_pos hc] at heq
      refine ih _ _ _ _ ?_ heq
      intro l hl
      refine ⟨cs, ?_, rfl⟩
      injection hl with hl2
      exact hl2.symm
    · rw [if_neg hc] at heq
      have h1 : update_centroids k nf X (assign_clusters cs X) cs = csF
          ∧ some (assign_clusters cs X) = some lblF := by
        simpa [Prod.mk.injEq] using heq
      obtain ⟨hcs, hl⟩ := h1
      injection hl with hl2
      exact ⟨cs, hl2.symm, hcs.symm⟩

/-- C3 (amended): after a successful fit, the stored labels are the
nearest-centroid assignment computed against the centroids from the start of
the FINAL iteration, and the final centroids are the one-step mean update of
exactly those labels; the labels need not be the nearest-centroid assignment
against the final (post-update) centroids, as the counterexample shows. -/
theorem c3_labels_assigned_to_prefinal_centroids
    (e : KMeansEngine) (draws : ℕ → ℝ) (data : KMData) (e2 : KMeansEngine)
    (h : fit e draws data = .ok e2) :
    ∃ X csPre,
      normalizeData data = .ok X
      ∧ e2.labels = some (assign_clusters csPre X)
      ∧ e2.centroids = some (update_centroids e.n_clusters
          (X.getD 0 []).length X (assign_clusters csPre X) csPre) := by
  cases hnorm : normalizeData data with
  | error m =>
    rw [fit] at h
    rw [hnorm] at h
    exact absurd h (by simp)
  | ok X =>
    rw [fit] at h
    rw [hnorm] at h
    simp only [] at h
    by_cases hlen : X.length < e.n_clusters
    · rw [if_pos hlen] at h
      exact absurd h (by simp)
    · rw [if_neg hlen] at h
      cases hloop : kmLoop e.tolerance e.n_clusters (X.getD 0 []).length X
          e.max_iterations (initialize_centroids e.n_clusters draws X)
          none with
      | mk csF lblsF =>
        cases lblsF with
        | none =>
          rw [hloop] at h
          exact absurd h (by simp)
        | some lblF =>
          rw [hloop] at h
          have he2 : ({ e with centroids := some csF, labels := some lblF, fitted := true } : KMeansEngine) = e2 := by
            injection h
          obtain ⟨csPre, hp1, hp2⟩ :=
            kmLoop_inv e.tolerance e.n_clusters (X.getD 0 []).length X
              e.max_iterations (initialize_centroids e.n_clusters draws X)
              none csF lblF (fun l hl => by cases hl) hloop
          refine ⟨X, csPre, rfl, ?_, ?_⟩
          · rw [← he2, ← hp1]
          · rw [← he2, ← hp2]

/-- C3 amended witness: the amended theorem applied to the concrete fit of
the counterexample dataset. -/
theorem c3_labels_assigned_to_prefinal_centroids_witness :
    ∃ X csPre,
      normalizeData data0 = .ok X
      ∧ (some [0, 1, 1] : Option (List ℕ)) = some (assign_clusters csPre X)
      ∧ (some [[0], [11 / 2]] : Option (List (List ℝ)))
          = some (update_centroids 2 (X.getD 0 []).length X
              (assign_clusters csPre X) csPre) := by
  exact c3_labels_assigned_to_prefinal_centroids e0 draws0 data0
    ⟨2, 1, 1 / 1000000, 42, some [[0], [11 / 2]], some [0, 1, 1], true⟩
    fit_example_eval

/-- C7: fit is deterministic for a fixed seed.  Constructing an engine
re-seeds the module RNG from random_state alone, so two freshly constructed
engines with the same seed, hyperparameters and data, each fit once in
sequence (the second starting from whatever RNG state the first left
behind), return the same outcome, in particular identical centroids and
identical labels. -/
theorem c7_fit_deterministic_for_fixed_seed (mt : ℕ → ℕ → ℝ) (k maxIt : ℕ)
    (tol : ℝ) (seed : ℕ) (data : KMData) (g0 : ℕ → ℝ) :
    ((constructAndFit mt k maxIt tol seed data g0).1
      = (constructAndFit mt k maxIt tol seed data
          (constructAndFit mt k maxIt tol seed data g0).2).1)
    ∧ (∀ e1 e2,
        (constructAndFit mt k maxIt tol seed data g0).1 = .ok e1 →
        (constructAndFit mt k maxIt tol seed data
          (constructAndFit mt k maxIt tol seed data g0).2).1 = .ok e2 →
        e1.centroids = e2.centroids ∧ e1.labels = e2.labels) := by
  have hAB : (constructAndFit mt k maxIt tol seed data g0).1
      = (constructAndFit mt k maxIt tol seed data
          (constructAndFit mt k maxIt tol seed data g0).2).1 := rfl
  refine ⟨hAB, ?_⟩
  intro e1 e2 h1 h2
  have h3 : (Except.ok e1 : Except String KMeansEngine) = Except.ok e2 := by
    rw [← h1, ← h2]
    exact hAB
  injection h3 with h4
  rw [h4]
  exact ⟨rfl, rfl⟩

end KM

namespace AE

noncomputable section

/-- AutoencoderEngine state: constructor hyperparameters, the four weight
containers (empty before fit, where Python holds None), the fitted flag and
the loss history. -/
structure AutoencoderEngine where
  input_dim : ℕ
  encoding_dim : ℕ
  learning_rate : ℝ
  max_epochs : ℕ
  tolerance : ℝ
  encoder_weights : List (List ℝ)
  encoder_bias : List ℝ
  decoder_weights : List (List ℝ)
  decoder_bias : List ℝ
  fitted : Bool
  loss_history : List ℝ

/-- AutoencoderEngine._sigmoid with its clamp of the argument to
[-250, 250]. -/
def sigmoid (x : ℝ) : ℝ :=
  1 / (1 + Real.exp (-(max (-250) (min 250 x))))

/-- Encoder half of _forward_pass: for each bottleneck unit, bias plus the
weighted sum over the input coordinates, through the sigmoid. -/
def encodeRow (e : AutoencoderEngine) (x : List ℝ) : List ℝ :=
  (List.range e.encoding_dim).map (fun i =>
    sigmoid ((List.range e.input_dim).foldl
      (fun acc j => acc + x.getD j 0 * (e.encoder_weights.getD i []).getD j 0)
      (e.encoder_bias.getD i 0)))

/-- Decoder half of _forward_pass (and the body of decode): linear
activation over bias plus the weighted sum of the encoded units. -/
def decodeRow (e : AutoencoderEngine) (h : List ℝ) : List ℝ :=
  (List.range e.input_dim).map (fun i =>
    (List.range e.encoding_dim).foldl
      (fun acc j => acc + h.getD j 0 * (e.decoder_weights.getD i []).getD j 0)
      (e.decoder_bias.getD i 0))

/-- Encode then decode one sample, as _forward_pass produces decoded and
reconstruct consumes it. -/
def reconRow (e : AutoencoderEngine) (x : List ℝ) : List ℝ :=
  decodeRow e (encodeRow e x)

/-- AutoencoderEngine._backward_pass: output errors decoded - x, hidden
errors projected through the decoder weights and scaled by the sigmoid
derivative, then the four gradient-descent updates (both error vectors are
computed before any update, as in the source). -/
def backwardPass (e : AutoencoderEngine) (x encoded decoded : List ℝ) :
    AutoencoderEngine :=
  let outputErrors := (List.range e.input_dim).map
    (fun i => decoded.getD i 0 - x.getD i 0)
  let hiddenErrors := (List.range e.encoding_dim).map (fun i =>
    ((List.range e.input_dim).foldl
      (fun acc j => acc + outputErrors.getD j 0
        * (e.decoder_weights.getD j []).getD i 0) 0)
      * (encoded.getD i 0 * (1 - encoded.getD i 0)))
  { e with
    decoder_weights := (List.range e.input_dim).map (fun i =>
      (List.range e.encoding_dim).map (fun j =>
        (e.decoder_weights.getD i []).getD j 0
          - e.learning_rate * (outputErrors.getD i 0 * encoded.getD j 0))),
    decoder_bias := (List.range e.input_dim).map (fun i =>
      e.decoder_bias.getD i 0 - e.learning_rate * outputErrors.getD i 0),
    encoder_weights := (List.range e.encoding_dim).map (fun i =>
      (List.range e.input_dim).map (fun j =>
        (e.encoder_weights.getD i []).getD j 0
          - e.learning_rate * (hiddenErrors.getD i 0 * x.getD j 0))),
    encoder_bias := (List.range e.encoding_dim).map (fun i =>
      e.encoder_bias.getD i 0 - e.learning_rate * hiddenErrors.getD i 0) }

/-- The per-sample mean-squared reconstruction loss of the fit loop. -/
def sampleLoss (e : AutoencoderEngine) (x decoded : List ℝ) : ℝ :=
  ((List.range e.input_dim).foldl
    (fun acc i => acc + (decoded.getD i 0 - x.getD i 0) ^ 2) 0)
    / e.input_dim

/-- One sample of the training loop: forward pass, loss, backward pass. -/
def trainSample (e : AutoencoderEngine) (x : List ℝ) :
    AutoencoderEngine × ℝ :=
  let encoded := encodeRow e x
  let decoded := decodeRow e encoded
  (backwardPass e x encoded decoded, sampleLoss e x decoded)

/-- One epoch over the shuffled sample order, accumulating total loss. -/
def runEpoch (e : AutoencoderEngine) (X : List (List ℝ))
    (order : List ℕ) : AutoencoderEngine × ℝ :=
  order.foldl (fun acc idx =>
    match trainSample acc.1 (X.getD idx []) with
    | (e2, l) => (e2, acc.2 + l)) (e, 0)

/-- The fit epoch loop: run an epoch, append the average loss to the
history, and stop early when the loss change drops below tolerance
(prev_loss starts at float inf, modelled as None, so the first epoch never
stops early). -/
def epochLoop (X : List (List ℝ)) (shuffles : ℕ → List ℕ) (tol : ℝ)
    (nSamples : ℕ) :
    ℕ → ℕ → AutoencoderEngine → Option ℝ → AutoencoderEngine
  | 0, _, e, _ => e
  | n + 1, epoch, e, prevLoss =>
    match runEpoch e X (shuffles epoch) with
    | (e1, total) =>
      let avg := total / nSamples
      let e2 := { e1 with loss_history := e1.loss_history ++ [avg] }
      match prevLoss with
      | some prev =>
        if |prev - avg| < tol then e2
        else epochLoop X shuffles tol nSamples n (epoch + 1) e2 (some avg)
      | none => epochLoop X shuffles tol nSamples n (epoch + 1) e2 (some avg)

/-- AutoencoderEngine._xavier_initialization: fan_out rows of fan_in
uniform draws in [-limit, limit] with limit = sqrt(6/(fan_in + fan_out));
random.uniform(a, b) is a + u * (b - a) on the unit draw stream, consumed
row-major from the given start offset. -/
def xavier (draws : ℕ → ℝ) (start fanIn fanOut : ℕ) : List (List ℝ) :=
  (List.range fanOut).map (fun i =>
    (List.range fanIn).map (fun j =>
      -Real.sqrt (6 / (fanIn + fanOut))
        + draws (start + i * fanIn + j)
          * (2 * Real.sqrt (6 / (fanIn + fanOut)))))

/-- Input as the interpreter hands it to the engine: one flat sample or a
list of samples; every entry point inspects the first element to tell the
two apart, so an empty input raises an index error. -/
inductive AEInput where
  | flat : List ℝ → AEInput
  | mat : List (List ℝ) → AEInput

/-- The body of fit after the single-sample conversion: Xavier-initialize
both layers, zero the biases, clear the loss history, run the epoch loop,
and set the fitted flag. -/
def fitCore (e : AutoencoderEngine) (draws : ℕ → ℝ)
    (shuffles : ℕ → List ℕ) (X : List (List ℝ)) : AutoencoderEngine :=
  let e1 := { e with
    encoder_weights := xavier draws 0 e.input_dim e.encoding_dim,
    encoder_bias := List.replicate e.encoding_dim 0,
    decoder_weights :=
      xavier draws (e.input_dim * e.encoding_dim) e.encoding_dim e.input_dim,
    decoder_bias := List.replicate e.input_dim 0,
    loss_history := [] }
  let e2 := epochLoop X shuffles e.tolerance X.length e.max_epochs 0 e1 none
  { e2 with fitted := true }

/-- AutoencoderEngine.fit. -/
def fit (e : AutoencoderEngine) (draws : ℕ → ℝ) (shuffles : ℕ → List ℕ)
    (data : AEInput) : Except String AutoencoderEngine :=
  match data with
  | .flat [] => .error "IndexError: list index out of range"
  | .flat (x :: xs) => .ok (fitCore e draws shuffles [x :: xs])
  | .mat [] => .error "IndexError: list index out of range"
  | .mat (r :: rs) => .ok (fitCore e draws shuffles (r :: rs))

/-- AutoencoderEngine.encode: fitted gate, single-sample conversion, one
encoder pass per sample, and the length-one unwrap of the result list. -/
def encode (e : AutoencoderEngine) (data : AEInput) :
    Except String (List ℝ ⊕ List (List ℝ)) :=
  if e.fitted = false then .error "Autoencoder must be fitted before encoding"
  else
    match data with
    | .flat [] => .error "IndexError: list index out of range"
    | .flat (x :: xs) => .ok (.inl (encodeRow e (x :: xs)))
    | .mat [] => .error "IndexError: list index out of range"
    | .mat (r :: rs) =>
      match rs with
      | [] => .ok (.inl (encodeRow e r))
      | _ :: _ => .ok (.inr ((r :: rs).map (encodeRow e)))

/-- AutoencoderEngine.decode, with the same gate, conversion and length-one
unwrap around the decoder pass. -/
def decode (e : AutoencoderEngine) (data : AEInput) :
    Except String (List ℝ ⊕ List (List ℝ)) :=
  if e.fitted = false then .error "Autoencoder must be fitted before decoding"
  else
    match data with
    | .flat [] => .error "IndexError: list index out of range"
    | .flat (x :: xs) => .ok (.inl (decodeRow e (x :: xs)))
    | .mat [] => .error "IndexError: list index out of range"
    | .mat (r :: rs) =>
      match rs with
      | [] => .ok (.inl (decodeRow e r))
      | _ :: _ => .ok (.inr ((r :: rs).map (decodeRow e)))

/-- AutoencoderEngine.reconstruct, the same shape around the full forward
pass. -/
def reconstruct (e : AutoencoderEngine) (data : AEInput) :
    Except String (List ℝ ⊕ List (List ℝ)) :=
  if e.fitted = false then
    .error "Autoencoder must be fitted before reconstruction"
  else
    match data with
    | .flat [] => .error "IndexError: list index out of range"
    | .flat (x :: xs) => .ok (.inl (reconRow e (x :: xs)))
    | .mat [] => .error "IndexError: list index out of range"
    | .mat (r :: rs) =>
      match rs with
      | [] => .ok (.inl (reconRow e r))
      | _ :: _ => .ok (.inr ((r :: rs).map (reconRow e)))

/-- The numeric core of reconstruction_error: the mean over the samples of
the per-sample mean of squared reconstruction differences (each sample goes
through reconstruct([sample]), whose length-one unwrap yields the
reconstructed row). -/
def reconErrCore (e : AutoencoderEngine) (samples : List (List ℝ)) : ℝ :=
  (samples.foldl (fun acc sm =>
    acc + ((List.range e.input_dim).foldl
      (fun acc2 i => acc2 + ((reconRow e sm).getD i 0 - sm.getD i 0) ^ 2) 0)
      / e.input_dim) 0)
    / samples.length

/-- AutoencoderEngine.reconstruction_error. -/
def reconstruction_error (e : AutoencoderEngine) (data : AEInput) :
    Except String ℝ :=
  if e.fitted = false then .error "Autoencoder must be fitted first"
  else
    match data with
    | .flat [] => .error "IndexError: list index out of range"
    | .flat (x :: xs) => .ok (reconErrCore e [x :: xs])
    | .mat [] => .error "IndexError: list index out of range"
    | .mat (r :: rs) => .ok (reconErrCore e (r :: rs))

/-- The dimension check of the C9 claim: one sample, or every sample, has
exactly input_dim coordinates. -/
def dimsMatch (e : AutoencoderEngine) : AEInput → Prop
  | .flat xs => xs.length = e.input_dim
  | .mat xss => ∀ row ∈ xss, row.length = e.input_dim

/-- Non-empty input (an empty one raises the X[0] index error instead). -/
def nonemptyInput : AEInput → Prop
  | .flat xs => xs ≠ []
  | .mat xss => xss ≠ []

end

lemma foldl_add_nonneg {α : Type} (f : α → ℝ) (hf : ∀ x, 0 ≤ f x) :
    ∀ (l : List α) (a : ℝ), 0 ≤ a →
      0 ≤ l.foldl (fun acc x => acc + f x) a := by
  intro l
  induction l with
  | nil => intro a ha; simpa using ha
  | cons x xs ih =>
    intro a ha
    exact ih (a + f x) (add_nonneg ha (hf x))

lemma reconErrCore_nonneg (e : AutoencoderEngine)
    (samples : List (List ℝ)) : 0 ≤ reconErrCore e samples := by
  apply div_nonneg
  · apply foldl_add_nonneg
      (fun sm => ((List.range e.input_dim).foldl
        (fun acc2 i => acc2 + ((reconRow e sm).getD i 0 - sm.getD i 0) ^ 2) 0)
        / (e.input_dim : ℝ))
    · intro sm
      apply div_nonneg
      · apply foldl_add_nonneg
          (fun i => ((reconRow e sm).getD i 0 - sm.getD i 0) ^ 2)
        · intro i
          exact sq_nonneg _
        · exact le_refl 0
      · exact Nat.cast_nonneg _
    · exact le_refl 0
  · exact Nat.cast_nonneg _

/-- C9: on a fitted autoencoder, reconstruction_error succeeds on every
non-empty input of matching dimension (one sample or a list of samples) and
the returned number, a mean of per-sample means of squared differences, is
non-negative. -/
theorem c9_reconstruction_error_nonneg (e : AutoencoderEngine)
    (data : AEInput) (he : e.fitted = true) (hd : dimsMatch e data)
    (hne : nonemptyInput data) :
    ∃ r, reconstruction_error e data = .ok r ∧ 0 ≤ r := by
  cases data with
  | flat xs =>
    cases xs with
    | nil => exact absurd rfl hne
    | cons x xs2 =>
      refine ⟨reconErrCore e [x :: xs2], ?_, reconErrCore_nonneg e _⟩
      simp [reconstruction_error, he]
  | mat xss =>
    cases xss with
    | nil => exact absurd rfl hne
    | cons r rs =>
      refine ⟨reconErrCore e (r :: rs), ?_, reconErrCore_nonneg e _⟩
      simp [reconstruction_error, he]

/-- A fitted one-input, zero-bottleneck engine used as the concrete witness
instance; its decoder bias is 0, so it reconstructs the zero sample
exactly. -/
noncomputable def eAE1 : AutoencoderEngine :=
  ⟨1, 0, 1 / 100, 1000, 1 / 1000000, [], [], [[]], [0], true, []⟩

/-- The same engine before fit. -/
noncomputable def eAE0 : AutoencoderEngine :=
  ⟨1, 0, 1 / 100, 1000, 1 / 1000000, [], [], [[]], [0], false, []⟩

/-- C9 witness: the theorem applied to the fitted witness engine on the
single sample [0]. -/
theorem c9_reconstruction_error_nonneg_witness :
    ∃ r, reconstruction_error eAE1 (.flat [0]) = .ok r ∧ 0 ≤ r :=
  c9_reconstruction_error_nonneg eAE1 (.flat [0]) rfl rfl
    (by simp [nonemptyInput])

/-- C10: on a fitted engine, encode, decode and reconstruct unwrap a result
list of length one: the plural-shaped input [[s]] (a list of lists holding
exactly one sample) returns the bare single result row, the same value the
bare sample s returns, not a one-element list of results. -/
theorem c10_length_one_results_unwrap (e : AutoencoderEngine) (s : List ℝ)
    (he : e.fitted = true) (hs : s ≠ []) :
    encode e (.mat [s]) = encode e (.flat s)
    ∧ encode e (.mat [s]) = .ok (.inl (encodeRow e s))
    ∧ decode e (.mat [s]) = decode e (.flat s)
    ∧ decode e (.mat [s]) = .ok (.inl (decodeRow e s))
    ∧ reconstruct e (.mat [s]) = reconstruct e (.flat s)
    ∧ reconstruct e (.mat [s]) = .ok (.inl (reconRow e s)) := by
  cases s with
  | nil => exact absurd rfl hs
  | cons x xs =>
    refine ⟨?_, ?_, ?_, ?_, ?_, ?_⟩ <;>
      simp [encode, decode, reconstruct, he]

/-- C10 witness: the theorem applied to the fitted witness engine and the
sample [0]. -/
theorem c10_length_one_results_unwrap_witness :
    encode eAE1 (.mat [[0]]) = encode eAE1 (.flat [0])
    ∧ encode eAE1 (.mat [[0]]) = .ok (.inl (encodeRow eAE1 [0])) := by
  have h := c10_length_one_results_unwrap eAE1 [0] rfl (by simp)
  exact ⟨h.1, h.2.1⟩

lemma km_fit_sets_fitted (ek : KM.KMeansEngine) (draws : ℕ → ℝ)
    (dk : KM.KMData) (e2 : KM.KMeansEngine)
    (h : KM.fit ek draws dk = .ok e2) : e2.fitted = true := by
  cases hnorm : KM.normalizeData dk with
  | error m =>
    rw [KM.fit] at h
    rw [hnorm] at h
    exact absurd h (by simp)
  | ok X =>
    rw [KM.fit] at h
    rw [hnorm] at h
    simp only [] at h
    by_cases hlen : X.length < ek.n_clusters
    · rw [if_pos hlen] at h
      exact absurd h (by simp)
    · rw [if_neg hlen] at h
      cases hloop : KM.kmLoop ek.tolerance ek.n_clusters
          (X.getD 0 []).length X ek.max_iterations
          (KM.initialize_centroids ek.n_clusters draws X) none with
      | mk csF lblsF =>
        cases lblsF with
        | none =>
          rw [hloop] at h
          exact absurd h (by simp)
        | some lblF =>
          rw [hloop] at h
          injection h with h2
          rw [← h2]

lemma ae_fit_sets_fitted (ea : AutoencoderEngine) (draws : ℕ → ℝ)
    (shuffles : ℕ → List ℕ) (da : AEInput) (e2 : AutoencoderEngine)
    (h : fit ea draws shuffles da = .ok e2) : e2.fitted = true := by
  cases da with
  | flat xs =>
    cases xs with
    | nil => exact absurd h (by simp [fit])
    | cons x xs2 =>
      have h3 := h
      simp only [fit] at h3
      injection h3 with h4
      rw [← h4]
      rfl
  | mat xss =>
    cases xss with
    | nil => exact absurd h (by simp [fit])
    | cons r rs =>
      have h3 := h
      simp only [fit] at h3
      injection h3 with h4
      rw [← h4]
      rfl

/-- C8: every inference operation invoked on an unfitted engine returns the
reportable state error of its source method (KMeans predict and
get_centroids, Autoencoder encode, decode, reconstruct and
reconstruction_error), never a null result or a crash; and whenever fit
returns successfully, the returned engine has fitted = true, which is
exactly what those gates require. -/
theorem c8_unfitted_gate_and_fit_sets_fitted
    (ek : KM.KMeansEngine) (ea : AutoencoderEngine)
    (dk : KM.KMData) (da : AEInput)
    (draws : ℕ → ℝ) (shuffles : ℕ → List ℕ)
    (hk : ek.fitted = false) (ha : ea.fitted = false) :
    KM.predict ek dk = .error "Model must be fitted before making predictions"
    ∧ KM.get_centroids ek = .error "Model must be fitted first"
    ∧ encode ea da = .error "Autoencoder must be fitted before encoding"
    ∧ decode ea da = .error "Autoencoder must be fitted before decoding"
    ∧ reconstruct ea da
        = .error "Autoencoder must be fitted before reconstruction"
    ∧ reconstruction_error ea da = .error "Autoencoder must be fitted first"
    ∧ (∀ e2, KM.fit ek draws dk = .ok e2 → e2.fitted = true)
    ∧ (∀ e2, fit ea draws shuffles da = .ok e2 → e2.fitted = true) := by
  refine ⟨?_, ?_, ?_, ?_, ?_, ?_, ?_, ?_⟩
  · simp [KM.predict, hk]
  · simp [KM.get_centroids, hk]
  · simp [encode, ha]
  · simp [decode, ha]
  · simp [reconstruct, ha]
  · simp [reconstruction_error, ha]
  · exact fun e2 h => km_fit_sets_fitted ek draws dk e2 h
  · exact fun e2 h => ae_fit_sets_fitted ea draws shuffles da e2 h

/-- C8 witness: the theorem applied to concrete unfitted engines and
concrete inputs. -/
theorem c8_unfitted_gate_witness :
    KM.predict ⟨2, 100, 1 / 1000000, 42, none, none, false⟩
        (KM.KMData.mat [[0]])
      = .error "Model must be fitted before making predictions"
    ∧ encode eAE0 (.flat [0])
      = .error "Autoencoder must be fitted before encoding" := by
  have h := c8_unfitted_gate_and_fit_sets_fitted
    ⟨2, 100, 1 / 1000000, 42, none, none, false⟩ eAE0
    (KM.KMData.mat [[0]]) (.flat [0]) (fun _ => 0) (fun _ => []) rfl rfl
  exact ⟨h.1, h.2.2.1⟩

end AE
